import Mathlib

/-!
Shallow embedding of the UI/controller layer of the RISKmap application
(`public/components/UIComponents.panels.js`), together with proofs of the
behavioural properties stated about it.  JavaScript numbers are modelled as
rationals (`ℚ`); a JavaScript value that may fail `Number.isFinite` /
`parseFloat` is modelled as `Option ℚ` (`none` = non-numeric or non-finite).
JavaScript objects used as string-keyed maps are modelled as association
lists.
-/

namespace RiskMap

/-- The clamp `Math.max(0, Math.min(100, x))` used throughout the UI. -/
def clamp100 (x : ℚ) : ℚ := max 0 (min 100 x)

/-- The clamp `Math.max(0, Math.min(1, x))` (`AppController.clamp01` on a
numeric argument). -/
def clamp01 (x : ℚ) : ℚ := max 0 (min 1 x)

/-- The scaling step of the effectiveness normalizers: a value whose absolute
value is at most 1 is treated as a 0–1 fraction and multiplied by 100
(`const scaled = Math.abs(parsed) <= 1 ? parsed * 100 : parsed`). -/
def scaleEff (x : ℚ) : ℚ := if |x| ≤ 1 then x * 100 else x

/-- Embedding of `AppController.normalizeTransparencyEffectiveness` on an array argument:
each entry is parsed (`none` = `parseFloat` produced a non-finite value, mapped
to 0), scaled by `scaleEff` and clamped to [0,100].  (On a non-array argument
the source returns the fixed default `[90, 45, 25, 15, 12, 5]`; the claims only
concern array arguments.) -/
def normalizeTransparencyEffectiveness (arr : List (Option ℚ)) : List ℚ :=
  arr.map (fun v =>
    match v with
    | none => 0
    | some x => clamp100 (scaleEff x))

/-- Embedding of `AppController.normalizeResponsivenessEffectiveness`.  `defaults` models
`riskEngine.defaultResponsivenessEffectiveness` and `expectedLength` the length
of `riskEngine.responsivenessLabels` (the `riskEngine` module is external to
the embedded file); a missing or non-finite entry falls back to the clamped
default, any other entry is scaled by `scaleEff` and clamped to [0,100]. -/
def normalizeResponsivenessEffectiveness (defaults : List ℚ) (expectedLength : ℕ)
    (arr : Option (List (Option ℚ))) : List ℚ :=
  (List.range expectedLength).map (fun i =>
    let fallback := defaults.getD i 0
    match arr with
    | none => clamp100 fallback
    | some a =>
      match a.getD i none with
      | none => clamp100 fallback
      | some x => clamp100 (scaleEff x))

theorem clamp100_nonneg (x : ℚ) : 0 ≤ clamp100 x := le_max_left 0 _

theorem clamp100_le (x : ℚ) : clamp100 x ≤ 100 := by
  unfold clamp100
  rcases le_total 0 (min 100 x) with h | h
  · rw [max_eq_right h]; exact min_le_left _ _
  · rw [max_eq_left h]; norm_num

theorem clamp100_eq_self {x : ℚ} (h0 : 0 ≤ x) (h1 : x ≤ 100) : clamp100 x = x := by
  unfold clamp100
  rw [min_eq_right h1, max_eq_right h0]

/-- Characterisation of when a normalized effectiveness entry lands strictly
between 0 and 1: exactly when the raw entry is strictly between 0 and 0.01. -/
theorem clamp_scale_mem_unit_iff (x : ℚ) :
    (0 < clamp100 (scaleEff x) ∧ clamp100 (scaleEff x) < 1) ↔ (0 < x ∧ x < 1/100) := by
  unfold clamp100 scaleEff
  constructor
  · rintro ⟨h0, h1⟩
    by_cases habs : |x| ≤ 1
    · simp only [if_pos habs] at h0 h1
      have hx1 : x * 100 ≤ 100 := by nlinarith [abs_le.mp habs]
      rw [min_eq_right hx1] at h0 h1
      have hpos : 0 < x * 100 := by
        by_contra hneg
        push_neg at hneg
        rw [max_eq_left hneg] at h0
        exact lt_irrefl 0 h0
      rw [max_eq_right hpos.le] at h1
      constructor
      · linarith
      · linarith
    · simp only [if_neg habs] at h0 h1
      push_neg at habs
      rcases lt_abs.mp habs with h | h
      · exfalso
        have h2 : (1:ℚ) ≤ min 100 x := le_min (by norm_num) h.le
        have h3 : (1:ℚ) ≤ max 0 (min 100 x) := le_trans h2 (le_max_right _ _)
        linarith
      · exfalso
        have hx0 : x ≤ 0 := by linarith
        have : min 100 x ≤ 0 := le_trans (min_le_right _ _) hx0
        rw [max_eq_left this] at h0
        exact lt_irrefl 0 h0
  · rintro ⟨h0, h1⟩
    have habs : |x| ≤ 1 := by
      rw [abs_le]; constructor <;> linarith
    simp only [if_pos habs]
    have hx1 : x * 100 ≤ 100 := by nlinarith
    rw [min_eq_right hx1, max_eq_right (by nlinarith : (0:ℚ) ≤ x * 100)]
    constructor <;> nlinarith

/-! ### Strings and object maps -/

/-- Embedding of `code.trim().toUpperCase()`, the ISO-code normalization used by
the controller.  Implemented directly on the character list so that the kernel
can evaluate it on concrete codes. -/
def normCode (c : String) : String :=
  ⟨(((c.data.dropWhile Char.isWhitespace).reverse.dropWhile Char.isWhitespace).reverse).map
    Char.toUpper⟩

/-- Embedding of `Array.from(new Set(arr))`: deduplication keeping the first
occurrence of each element, in order. -/
def jsSetDedup (l : List String) : List String :=
  l.foldl (fun acc c => if acc.contains c then acc else acc ++ [c]) []

/-- Assignment `obj[k] = v` on a JavaScript object modelled as an association
list: replace the value of an existing key in place, otherwise append the new
binding at the end. -/
def objSet (m : List (String × ℚ)) (k : String) (v : ℚ) : List (String × ℚ) :=
  if m.any (fun kv => kv.1 = k) then
    m.map (fun kv => if kv.1 = k then (k, v) else kv)
  else
    m ++ [(k, v)]

/-- The re-keying loop of `setState` / `restoreState` on `countryVolumes`:
`Object.entries(...).forEach(([key, value]) => { normalized[key.trim().toUpperCase()] = value })`. -/
def rekeyVolumes (vs : List (String × ℚ)) : List (String × ℚ) :=
  vs.foldl (fun acc kv => objSet acc (normCode kv.1) kv.2) []

theorem objSet_key_mem {m : List (String × ℚ)} {k : String} {v : ℚ} :
    ∀ kv ∈ objSet m k v, kv.1 = k ∨ kv ∈ m := by
  intro kv hkv
  unfold objSet at hkv
  split at hkv
  · rcases List.mem_map.mp hkv with ⟨kv', hkv', heq⟩
    by_cases h : kv'.1 = k
    · rw [if_pos h] at heq; left; rw [← heq]
    · rw [if_neg h] at heq; right; rw [← heq]; exact hkv'
  · rcases List.mem_append.mp hkv with h | h
    · right; exact h
    · left; simp only [List.mem_singleton] at h; rw [h]

/-! ### Audit coverage (cost-analysis panel, social-audit constraint) -/

/-- Embedding of `computeAuditCoverageFromAllocation`: the sum of the tool-2 and
tool-3 coverages of an allocation, each entry individually clamped to [0,100],
with 0 for a missing/short array or a non-finite entry. -/
def computeAuditCoverageFromAllocation (allocation : Option (List (Option ℚ))) : ℚ :=
  match allocation with
  | none => 0
  | some a =>
    if a.length < 4 then 0
    else
      let announced := match a.getD 2 none with
        | some x => max 0 (min 100 x)
        | none => 0
      let unannounced := match a.getD 3 none with
        | some x => max 0 (min 100 x)
        | none => 0
      announced + unannounced

/-- The `auditCoverageTarget` computation of `createCostAnalysisPanel`: `null`
unless the social-audit constraint is enforced; otherwise the current audit
coverage when it exceeds 0.1, else the fallback allocation's audit coverage,
clamped to [0,100]. -/
def auditCoverageTarget (enforceSocialAuditConstraint : Bool)
    (hrddStrategy currentAllocation : Option (List (Option ℚ))) : Option ℚ :=
  if enforceSocialAuditConstraint then
    let currentAuditCoverage := computeAuditCoverageFromAllocation hrddStrategy
    let fallbackAuditCoverage := computeAuditCoverageFromAllocation currentAllocation
    let baseValue := if currentAuditCoverage > 1/10 then currentAuditCoverage
      else fallbackAuditCoverage
    some (max 0 (min 100 baseValue))
  else none

theorem computeAuditCoverage_nonneg (allocation : Option (List (Option ℚ))) :
    0 ≤ computeAuditCoverageFromAllocation allocation := by
  unfold computeAuditCoverageFromAllocation
  rcases allocation with _ | a
  · norm_num
  · simp only
    split
    · norm_num
    · have h1 : (0:ℚ) ≤ match a.getD 2 none with
        | some x => max 0 (min 100 x)
        | none => 0 := by
        rcases a.getD 2 none with _ | x <;> simp [le_max_left]
      have h2 : (0:ℚ) ≤ match a.getD 3 none with
        | some x => max 0 (min 100 x)
        | none => 0 := by
        rcases a.getD 3 none with _ | x <;> simp [le_max_left]
      exact add_nonneg h1 h2

theorem computeAuditCoverage_le_two_hundred (allocation : Option (List (Option ℚ))) :
    computeAuditCoverageFromAllocation allocation ≤ 200 := by
  unfold computeAuditCoverageFromAllocation
  rcases allocation with _ | a
  · norm_num
  · simp only
    split
    · norm_num
    · have h1 : (match a.getD 2 none with
        | some x => max 0 (min 100 x)
        | none => 0) ≤ (100:ℚ) := by
        rcases a.getD 2 none with _ | x
        · norm_num
        · simp only [max_le_iff]
          exact ⟨by norm_num, min_le_left _ _⟩
      have h2 : (match a.getD 3 none with
        | some x => max 0 (min 100 x)
        | none => 0) ≤ (100:ℚ) := by
        rcases a.getD 3 none with _ | x
        · norm_num
        · simp only [max_le_iff]
          exact ⟨by norm_num, min_le_left _ _⟩
      linarith

/-! ### Cost-assumption sanitization (`createCostAnalysisPanel`) -/

/-- Embedding of the `sanitizeArray` helper of `createCostAnalysisPanel`: build
an array of exactly `length` entries, where each entry is the parsed raw value
(`none` = missing index or non-numeric value, which `parseFloat(...) || 0`
turns into 0) floored at `low` and, when the cap is finite, capped at it. -/
def sanitizeArray (values : Option (List (Option ℚ))) (length : ℕ)
    (low : ℚ) (cap : Option ℚ) : List ℚ :=
  let baseArray := values.getD []
  (List.range length).map (fun index =>
    let rawValue := baseArray.getD index none
    let numeric := max low (rawValue.getD 0)
    match cap with
    | some m => min m numeric
    | none => numeric)

/-- The four sanitized per-tool cost arrays of `createCostAnalysisPanel`, with
their fixed caps: 50 000 / 2 000 / 500 / 200.  `strategyCount` models
`riskEngine.hrddStrategyLabels.length`. -/
def sanitizedToolAnnualProgrammeCosts (strategyCount : ℕ)
    (toolAnnualProgrammeCosts : Option (List (Option ℚ))) : List ℚ :=
  sanitizeArray toolAnnualProgrammeCosts strategyCount 0 (some 50000)

/-- Sanitized per-supplier external costs, capped at 2 000. -/
def sanitizedToolPerSupplierCosts (strategyCount : ℕ)
    (toolPerSupplierCosts : Option (List (Option ℚ))) : List ℚ :=
  sanitizeArray toolPerSupplierCosts strategyCount 0 (some 2000)

/-- Sanitized per-supplier detection hours, capped at 500. -/
def sanitizedToolInternalHours (strategyCount : ℕ)
    (toolInternalHours : Option (List (Option ℚ))) : List ℚ :=
  sanitizeArray toolInternalHours strategyCount 0 (some 500)

/-- Sanitized per-supplier remedy hours, capped at 200. -/
def sanitizedToolRemedyInternalHours (strategyCount : ℕ)
    (toolRemedyInternalHours : Option (List (Option ℚ))) : List ℚ :=
  sanitizeArray toolRemedyInternalHours strategyCount 0 (some 200)

theorem sanitizeArray_length (values : Option (List (Option ℚ))) (length : ℕ)
    (low : ℚ) (cap : Option ℚ) : (sanitizeArray values length low cap).length = length := by
  unfold sanitizeArray
  simp

theorem sanitizeArray_mem_bounds {values : Option (List (Option ℚ))} {length : ℕ}
    {capValue : ℚ} (hcap : 0 ≤ capValue) :
    ∀ e ∈ sanitizeArray values length 0 (some capValue), 0 ≤ e ∧ e ≤ capValue := by
  intro e he
  unfold sanitizeArray at he
  simp only [List.mem_map, List.mem_range] at he
  rcases he with ⟨i, _, hei⟩
  constructor
  · rw [← hei]
    exact le_min hcap (le_max_left _ _)
  · rw [← hei]
    exact min_le_left _ _

theorem sanitizeArray_none_eq_zero {values : Option (List (Option ℚ))} {length : ℕ}
    {capValue : ℚ} (hcap : 0 ≤ capValue) {i : ℕ} (hi : i < length)
    (hraw : (values.getD []).getD i none = none) :
    (sanitizeArray values length 0 (some capValue)).getD i 0 = 0 := by
  unfold sanitizeArray
  rw [List.getD_eq_getElem?_getD]
  rw [List.getElem?_map]
  rw [List.getElem?_range hi]
  simp only [Option.map_some', Option.getD_some]
  rw [hraw]
  simp [hcap]

/-! ### Detailed budget breakdown (`renderDetailedBudgetBreakdown.buildBreakdown`) -/

/-- One per-tool row produced by `buildBreakdown`. -/
structure ToolRow where
  coverage : ℚ
  suppliersUsingTool : ℤ
  detectionHours : ℚ
  remedyHours : ℚ
  totalExternalCost : ℚ
  detectionInternalCost : ℚ
  remedyInternalCost : ℚ
  totalInternalCost : ℚ
  totalCost : ℚ
  deriving DecidableEq

/-- Embedding of the body of `buildBreakdown` for tool `index`.
`safeSupplierCount` models `Math.max(1, Math.floor(...))` (an integer),
`allocation` entries go through a `Number.isFinite` guard (`none` ↦ 0), and the
cost arrays read `arr[index] || 0` (missing ↦ 0).  `applySocialAuditReduction`
and `isSocialAuditTool` model the optional audit cost-reduction factor. -/
def buildBreakdownRow (safeSupplierCount : ℤ) (safeHourlyRate : ℚ)
    (safeAnnualCosts safePerSupplierCosts safeInternalHours safeRemedyHours : List ℚ)
    (socialAuditReductionFactor : ℚ) (isSocialAuditTool : ℕ → Bool)
    (applySocialAuditReduction : Bool) (allocation : List (Option ℚ)) (index : ℕ) : ToolRow :=
  let coverage := (allocation.getD index none).getD 0
  let coverageFraction := max 0 (min 1 (coverage / 100))
  let suppliersUsingTool := ⌈(safeSupplierCount : ℚ) * coverageFraction⌉
  let annualProgrammeBase := safeAnnualCosts.getD index 0
  let applyReduction := applySocialAuditReduction && isSocialAuditTool index
  let reductionFactor := if applyReduction then socialAuditReductionFactor else 1
  let annualProgrammeCost := annualProgrammeBase * coverageFraction * reductionFactor
  let perSupplierCost := (safePerSupplierCosts.getD index 0) * reductionFactor
  let detectionHoursPerSupplier := (safeInternalHours.getD index 0) * reductionFactor
  let remedyHoursPerSupplier := (safeRemedyHours.getD index 0) * reductionFactor
  let detectionHours := (suppliersUsingTool : ℚ) * detectionHoursPerSupplier
  let remedyHours := (suppliersUsingTool : ℚ) * remedyHoursPerSupplier
  let detectionInternalCost := detectionHours * safeHourlyRate
  let remedyInternalCost := remedyHours * safeHourlyRate
  let totalInternalCost := detectionInternalCost + remedyInternalCost
  let totalExternalCost := annualProgrammeCost + (suppliersUsingTool : ℚ) * perSupplierCost
  let totalCost := totalExternalCost + totalInternalCost
  { coverage := coverage
    suppliersUsingTool := suppliersUsingTool
    detectionHours := detectionHours
    remedyHours := remedyHours
    totalExternalCost := totalExternalCost
    detectionInternalCost := detectionInternalCost
    remedyInternalCost := remedyInternalCost
    totalInternalCost := totalInternalCost
    totalCost := totalCost }

/-- Embedding of `buildBreakdown`: one row per tool label.  `strategyCount`
models `riskEngine.hrddStrategyLabels.length`. -/
def buildBreakdown (strategyCount : ℕ) (safeSupplierCount : ℤ) (safeHourlyRate : ℚ)
    (safeAnnualCosts safePerSupplierCosts safeInternalHours safeRemedyHours : List ℚ)
    (socialAuditReductionFactor : ℚ) (isSocialAuditTool : ℕ → Bool)
    (applySocialAuditReduction : Bool) (allocation : List (Option ℚ)) : List ToolRow :=
  (List.range strategyCount).map
    (buildBreakdownRow safeSupplierCount safeHourlyRate safeAnnualCosts safePerSupplierCosts
      safeInternalHours safeRemedyHours socialAuditReductionFactor isSocialAuditTool
      applySocialAuditReduction allocation)

/-- The spec's formula `suppliersUsingTool = ceil(supplierCount * coverage/100)`
with the coverage fraction clamped to [0,1]. -/
def specSuppliersUsingTool (supplierCount : ℤ) (coverage : ℚ) : ℤ :=
  ⌈(supplierCount : ℚ) * (max 0 (min 1 (coverage / 100)))⌉

/-- The spec's formula
`externalCost = annualProgrammeCost * (coverage/100) + suppliersUsingTool * perSupplierCost`. -/
def specExternalCost (supplierCount : ℤ) (annualProgrammeCost perSupplierCost coverage : ℚ) : ℚ :=
  annualProgrammeCost * (max 0 (min 1 (coverage / 100))) +
    (specSuppliersUsingTool supplierCount coverage : ℚ) * perSupplierCost

/-- The spec's formula
`detectionInternalCost = suppliersUsingTool * detectionHoursPerSupplier * hourlyRate`. -/
def specDetectionInternalCost (supplierCount : ℤ)
    (detectionHoursPerSupplier hourlyRate coverage : ℚ) : ℚ :=
  (specSuppliersUsingTool supplierCount coverage : ℚ) * detectionHoursPerSupplier * hourlyRate

/-- The spec's formula
`remedyInternalCost = suppliersUsingTool * remedyHoursPerSupplier * hourlyRate`. -/
def specRemedyInternalCost (supplierCount : ℤ)
    (remedyHoursPerSupplier hourlyRate coverage : ℚ) : ℚ :=
  (specSuppliersUsingTool supplierCount coverage : ℚ) * remedyHoursPerSupplier * hourlyRate

/-! ### Fallback stage attribution (`createFinalResultsPanel`) -/

/-- The stage-attribution quantities computed by `createFinalResultsPanel` when
the engine summary carries no `stageBreakdown`. -/
structure StageAttribution where
  totalReduction : ℚ
  baseReduction : ℚ
  focusStageReduction : ℚ
  detectionStageReduction : ℚ
  remedyStageReduction : ℚ
  conductStageReduction : ℚ
  riskAfterDetection : ℚ
  riskAfterRemedy : ℚ
  riskAfterConduct : ℚ
  detectionStepPercent : ℚ
  remedyStepPercent : ℚ
  conductStepPercent : ℚ
  focusStepPercent : ℚ
  detectionShareOfTotal : ℚ
  remedyShareOfTotal : ℚ
  conductShareOfTotal : ℚ
  focusShareOfTotal : ℚ
  deriving DecidableEq

/-- Embedding of the `else` branch (no `stageBreakdown`) of the stage
attribution in `createFinalResultsPanel`, lines 1309–1342, together with the
surrounding sanitization (`sanitizedTransparency` etc., lines 1243–1247). -/
def fallbackStageAttribution (baselineValue managedValue focusMultiplier
    transparencyValue sustainedRemedyValue goodConductValue : ℚ) : StageAttribution :=
  let sanitizedTransparency := max 0 (min 1 transparencyValue)
  let sanitizedRemedy := max 0 (min 1 sustainedRemedyValue)
  let sanitizedConduct := max 0 (min 1 goodConductValue)
  let totalReduction := baselineValue - managedValue
  let baseReduction := if focusMultiplier > 0 then totalReduction / focusMultiplier else 0
  let focusStageReduction := totalReduction - baseReduction
  let stageWeightSum := sanitizedTransparency + sanitizedRemedy + sanitizedConduct
  let detectionWeight := if stageWeightSum > 0 then sanitizedTransparency / stageWeightSum else 1/3
  let remedyWeight := if stageWeightSum > 0 then sanitizedRemedy / stageWeightSum else 1/3
  let detectionStageReduction := baseReduction * detectionWeight
  let remedyStageReduction := baseReduction * remedyWeight
  let conductStageReduction := baseReduction - detectionStageReduction - remedyStageReduction
  let riskAfterDetection := baselineValue - detectionStageReduction
  let riskAfterRemedy := riskAfterDetection - remedyStageReduction
  let riskAfterConduct := riskAfterRemedy - conductStageReduction
  { totalReduction := totalReduction
    baseReduction := baseReduction
    focusStageReduction := focusStageReduction
    detectionStageReduction := detectionStageReduction
    remedyStageReduction := remedyStageReduction
    conductStageReduction := conductStageReduction
    riskAfterDetection := riskAfterDetection
    riskAfterRemedy := riskAfterRemedy
    riskAfterConduct := riskAfterConduct
    detectionStepPercent :=
      if baselineValue > 0 then detectionStageReduction / baselineValue * 100 else 0
    remedyStepPercent :=
      if baselineValue > 0 then remedyStageReduction / baselineValue * 100 else 0
    conductStepPercent :=
      if baselineValue > 0 then conductStageReduction / baselineValue * 100 else 0
    focusStepPercent :=
      if baselineValue > 0 then focusStageReduction / baselineValue * 100 else 0
    detectionShareOfTotal :=
      if totalReduction ≠ 0 then detectionStageReduction / totalReduction * 100 else 0
    remedyShareOfTotal :=
      if totalReduction ≠ 0 then remedyStageReduction / totalReduction * 100 else 0
    conductShareOfTotal :=
      if totalReduction ≠ 0 then conductStageReduction / totalReduction * 100 else 0
    focusShareOfTotal :=
      if totalReduction ≠ 0 then focusStageReduction / totalReduction * 100 else 0 }

/-! ### Controller state and handlers (`AppController`) -/

/-- The configuration flag `const ENABLE_PANEL_6 = true` (line 4179). -/
def ENABLE_PANEL_6 : Bool := true

/-- An optimization result returned by the risk engine
(`riskEngine.optimizeBudgetAllocation`); its exact content is opaque to the
controller, which only stores it. -/
structure OptResult where
  optimizedToolAllocation : List ℚ
  totalBudget : ℚ
  deriving DecidableEq

/-- The mutable session state of `AppController` (the fields relevant to the
claims; rendering/bookkeeping fields such as `loading`, `error`, `countries`
or `lastUpdate` are omitted). -/
structure AppState where
  weights : List ℚ
  selectedCountries : List String
  countryVolumes : List (String × ℚ)
  countryManagedRisks : List (String × ℚ)
  hrddStrategy : List ℚ
  transparencyEffectiveness : List ℚ
  responsivenessStrategy : List ℚ
  responsivenessEffectiveness : List ℚ
  focus : ℚ
  riskConcentration : ℚ
  currentPanel : ℚ
  supplierCount : ℚ
  hourlyRate : ℚ
  toolAnnualProgrammeCosts : List ℚ
  toolPerSupplierCosts : List ℚ
  toolInternalHours : List ℚ
  toolRemedyInternalHours : List ℚ
  saqConstraintEnabled : Bool
  socialAuditConstraintEnabled : Bool
  socialAuditCostReduction : ℚ
  lastOptimizationResult : Option OptResult
  shouldAutoRunOptimization : Bool
  deriving DecidableEq

/-- The invariant asserted by the spec for `PortfolioSelection`: every key of
the volume map belongs to the current selection. -/
def volumesInvariant (s : AppState) : Prop :=
  ∀ kv ∈ s.countryVolumes, kv.1 ∈ s.selectedCountries

instance (s : AppState) : Decidable (volumesInvariant s) :=
  List.decidableBAll _ s.countryVolumes

/-- Embedding of `AppController.onHRDDStrategyChange` on an array argument
(a non-array argument returns without touching the state).  When Panel 6 and
the SAQ constraint are enabled and the tool-4/5 coverages are more than 0.1
away from summing to 100, a positive sum is rescaled proportionally and a
non-positive sum is replaced by a 50/50 split. -/
def onHRDDStrategyChange (s : AppState) (next : Option (List ℚ)) : AppState :=
  match next with
  | none => s
  | some arr =>
    let updatedStrategy := arr
    let updatedStrategy :=
      if ENABLE_PANEL_6 && s.saqConstraintEnabled then
        let saqSum := updatedStrategy.getD 4 0 + updatedStrategy.getD 5 0
        if |saqSum - 100| > 1/10 then
          if saqSum > 0 then
            let rescale := 100 / saqSum
            (updatedStrategy.set 4 (updatedStrategy.getD 4 0 * rescale)).set 5
              (updatedStrategy.getD 5 0 * rescale)
          else
            (updatedStrategy.set 4 50).set 5 50
        else updatedStrategy
      else updatedStrategy
    { s with hrddStrategy := updatedStrategy }

/-- The argument of `onCountrySelect`: an array of codes, a single code to
toggle, or anything else (treated as an empty selection). -/
inductive SelectInput where
  | arr (codes : List String)
  | single (code : String)
  | other

/-- The common tail of `onCountrySelect`: purge the volume (and managed-risk)
entries of every deselected country, then store the updated selection. -/
def applySelection (s : AppState) (updatedSelection : List String) : AppState :=
  let deselected := s.selectedCountries.filter (fun code => !updatedSelection.contains code)
  let cleanedVolumes :=
    if deselected.isEmpty then s.countryVolumes
    else s.countryVolumes.filter (fun kv => !deselected.contains kv.1)
  let cleanedManagedRisks :=
    if deselected.isEmpty then s.countryManagedRisks
    else s.countryManagedRisks.filter (fun kv => !deselected.contains kv.1)
  { s with
    countryVolumes := cleanedVolumes
    countryManagedRisks := cleanedManagedRisks
    selectedCountries := updatedSelection }

/-- Embedding of `AppController.onCountrySelect`: an array argument is
normalized (trim, uppercase, drop empties); a string argument toggles the code
in the normalized previous selection; any other argument clears the
selection. -/
def onCountrySelect (s : AppState) (nextSelected : SelectInput) : AppState :=
  match nextSelected with
  | .arr codes =>
    applySelection s ((codes.map normCode).filter (fun c => c != ""))
  | .single code =>
    let trimmed := normCode code
    if trimmed = "" then s
    else
      let selectionSet := jsSetDedup (s.selectedCountries.map normCode)
      let updatedSelection :=
        if selectionSet.contains trimmed then selectionSet.filter (fun c => c != trimmed)
        else selectionSet ++ [trimmed]
      applySelection s updatedSelection
  | .other => applySelection s []

/-- Embedding of `AppController.onVolumeChange`: the code is normalized, the
volume floored at 0, and the entry is stored only if the normalized code is
currently selected. -/
def onVolumeChange (s : AppState) (isoCode : String) (volume : ℚ) : AppState :=
  let normalized := normCode isoCode
  let v := max 0 volume
  if s.selectedCountries.contains normalized then
    { s with countryVolumes := objSet s.countryVolumes normalized v }
  else s

/-- Embedding of `AppController.optimizeBudgetAllocation`.  The risk engine is
modelled as a pure function of the state (the claim's hypothesis that the
engine does not mutate its arguments); a falsy engine result is stored as
`none` (`result || null`).  Returns the new state and the returned result. -/
def optimizeBudgetAllocation (s : AppState) (engine : AppState → Option OptResult) :
    AppState × Option OptResult :=
  if ENABLE_PANEL_6 = false then (s, none)
  else
    let result := engine s
    ({ s with
        lastOptimizationResult := result
        shouldAutoRunOptimization := false }, result)

/-- Embedding of `AppController.setCurrentPanel`: accepts any panel number in
[1, maxPanel] where maxPanel is 6 when Panel 6 is enabled, else 5. -/
def setCurrentPanel (s : AppState) (panel : ℚ) : AppState :=
  let maxPanel : ℚ := if ENABLE_PANEL_6 then 6 else 5
  if 1 ≤ panel ∧ panel ≤ maxPanel then
    { s with
      currentPanel := panel
      shouldAutoRunOptimization :=
        if ENABLE_PANEL_6 then panel = 6 else s.shouldAutoRunOptimization }
  else s

/-- JavaScript's `Math.round` on a rational: round half away from zero upward,
i.e. `⌊x + 1/2⌋`. -/
def jsRound (x : ℚ) : ℤ := ⌊x + 1/2⌋

/-- The subset of a `setState` payload relevant to the claims; `none` models an
absent (or, for the array fields, non-array) property. -/
structure StateUpdate where
  selectedCountries : Option (List String) := none
  weights : Option (List ℚ) := none
  hrddStrategy : Option (List ℚ) := none
  transparencyEffectiveness : Option (List ℚ) := none
  responsivenessStrategy : Option (List ℚ) := none
  responsivenessEffectiveness : Option (List ℚ) := none
  focus : Option ℚ := none
  riskConcentration : Option ℚ := none
  countryVolumes : Option (List (String × ℚ)) := none
  currentPanel : Option ℚ := none

/-- Embedding of `AppController.setState` on the modelled fields.
`respDefaults`/`respLength` model the `riskEngine` data consumed by
`normalizeResponsivenessEffectiveness`.  Note that a supplied `countryVolumes`
object is only re-keyed (trim + uppercase), never filtered against the
selection, and a numeric `currentPanel` is rounded then clamped to [1,5]. -/
def setState (respDefaults : List ℚ) (respLength : ℕ) (s : AppState)
    (update : StateUpdate) : AppState :=
  let s := match update.selectedCountries with
    | some arr => { s with selectedCountries := jsSetDedup arr }
    | none => s
  let s := match update.weights with
    | some arr => { s with weights := arr }
    | none => s
  let s := match update.hrddStrategy with
    | some arr => { s with hrddStrategy := arr }
    | none => s
  let s := match update.transparencyEffectiveness with
    | some arr =>
      { s with transparencyEffectiveness := normalizeTransparencyEffectiveness (arr.map some) }
    | none => s
  let s := match update.responsivenessStrategy with
    | some arr => { s with responsivenessStrategy := arr }
    | none => s
  let s := match update.responsivenessEffectiveness with
    | some arr =>
      { s with responsivenessEffectiveness :=
          normalizeResponsivenessEffectiveness respDefaults respLength (some (arr.map some)) }
    | none => s
  let s := match update.focus with
    | some x => { s with focus := clamp01 x }
    | none => s
  let s := match update.riskConcentration with
    | some x => { s with riskConcentration := x }
    | none => s
  let s := match update.countryVolumes with
    | some vs => { s with countryVolumes := rekeyVolumes vs }
    | none => s
  let s := match update.currentPanel with
    | some p => { s with currentPanel := ((max 1 (min 5 (jsRound p)) : ℤ) : ℚ) }
    | none => s
  s

/-- The session snapshot written by `AppController.saveState` (the non-Panel-6
fields; the Panel-6 cost settings are saved alongside but are not part of the
round-trip claim). -/
structure SessionSnapshot where
  selectedCountries : List String
  weights : List ℚ
  hrddStrategy : List ℚ
  transparencyEffectiveness : List ℚ
  responsivenessStrategy : List ℚ
  responsivenessEffectiveness : List ℚ
  focus : ℚ
  riskConcentration : ℚ
  countryVolumes : List (String × ℚ)
  deriving DecidableEq

/-- Embedding of `AppController.saveState`: serialize the session fields
verbatim. -/
def saveState (s : AppState) : SessionSnapshot :=
  { selectedCountries := s.selectedCountries
    weights := s.weights
    hrddStrategy := s.hrddStrategy
    transparencyEffectiveness := s.transparencyEffectiveness
    responsivenessStrategy := s.responsivenessStrategy
    responsivenessEffectiveness := s.responsivenessEffectiveness
    focus := s.focus
    riskConcentration := s.riskConcentration
    countryVolumes := s.countryVolumes }

/-- Embedding of `AppController.restoreState` on a parsed snapshot: weights and
strategies are copied, selected codes are normalized and empties dropped, the
two effectiveness arrays are re-normalized, focus is re-clamped to [0,1], and
the volume map is re-keyed. -/
def restoreState (respDefaults : List ℚ) (respLength : ℕ) (s : AppState)
    (parsed : SessionSnapshot) : AppState :=
  { s with
    weights := parsed.weights
    selectedCountries := (parsed.selectedCountries.map normCode).filter (fun c => c != "")
    hrddStrategy := parsed.hrddStrategy
    transparencyEffectiveness :=
      normalizeTransparencyEffectiveness (parsed.transparencyEffectiveness.map some)
    responsivenessStrategy := parsed.responsivenessStrategy
    responsivenessEffectiveness :=
      normalizeResponsivenessEffectiveness respDefaults respLength
        (some (parsed.responsivenessEffectiveness.map some))
    focus := clamp01 parsed.focus
    riskConcentration := parsed.riskConcentration
    countryVolumes := rekeyVolumes parsed.countryVolumes }

/-! ### Shared helper lemmas and example states -/

theorem length_six_destruct {α : Type} (l : List α) (h : l.length = 6) :
    ∃ a b c d e f, l = [a, b, c, d, e, f] := by
  rcases l with _ | ⟨a, _ | ⟨b, _ | ⟨c, _ | ⟨d, _ | ⟨e, _ | ⟨f, _ | ⟨g, t⟩⟩⟩⟩⟩⟩⟩ <;> simp_all

/-- A concrete controller state used to instantiate the theorems; its values
mirror `resetApplicationState`. -/
def exBaseState : AppState :=
  { weights := [20, 20, 20, 20, 20]
    selectedCountries := []
    countryVolumes := []
    countryManagedRisks := []
    hrddStrategy := [0, 10, 5, 65, 100, 0]
    transparencyEffectiveness := [90, 45, 25, 15, 12, 5]
    responsivenessStrategy := [75, 85, 50, 25, 5, 5]
    responsivenessEffectiveness := [70, 85, 35, 25, 15, 5]
    focus := 3/5
    riskConcentration := 1
    currentPanel := 1
    supplierCount := 500
    hourlyRate := 40
    toolAnnualProgrammeCosts := [12000, 0, 0, 40000, 0, 0]
    toolPerSupplierCosts := [120, 0, 1000, 0, 0, 0]
    toolInternalHours := [6, 20, 20, 6, 2, 1]
    toolRemedyInternalHours := [0, 10, 10, 6, 2, 2]
    saqConstraintEnabled := true
    socialAuditConstraintEnabled := true
    socialAuditCostReduction := 50
    lastOptimizationResult := none
    shouldAutoRunOptimization := false }

/-! ### Claim C1 -/

/-- C1.  When the SAQ constraint is enabled, `onHRDDStrategyChange` on any
6-element coverage array (entries 4 and 5 non-negative) stores a strategy whose
entries 4 and 5 sum to 100 within the handler's 0.1 tolerance; when the
incoming sum is more than 0.1 away from 100, a positive sum is rescaled
proportionally to 100 exactly and a zero sum is replaced by a 50/50 split. -/
theorem saq_sum_invariant (s : AppState) (next : List ℚ) (hlen : next.length = 6)
    (hsaq : s.saqConstraintEnabled = true)
    (h4 : 0 ≤ next.getD 4 0) (h5 : 0 ≤ next.getD 5 0) :
    |(onHRDDStrategyChange s (some next)).hrddStrategy.getD 4 0 +
      (onHRDDStrategyChange s (some next)).hrddStrategy.getD 5 0 - 100| ≤ 1/10 ∧
    (1/10 < |next.getD 4 0 + next.getD 5 0 - 100| →
      (0 < next.getD 4 0 + next.getD 5 0 →
        (onHRDDStrategyChange s (some next)).hrddStrategy.getD 4 0 =
          next.getD 4 0 * (100 / (next.getD 4 0 + next.getD 5 0)) ∧
        (onHRDDStrategyChange s (some next)).hrddStrategy.getD 5 0 =
          next.getD 5 0 * (100 / (next.getD 4 0 + next.getD 5 0)) ∧
        (onHRDDStrategyChange s (some next)).hrddStrategy.getD 4 0 +
          (onHRDDStrategyChange s (some next)).hrddStrategy.getD 5 0 = 100) ∧
      (next.getD 4 0 + next.getD 5 0 = 0 →
        (onHRDDStrategyChange s (some next)).hrddStrategy.getD 4 0 = 50 ∧
        (onHRDDStrategyChange s (some next)).hrddStrategy.getD 5 0 = 50)) := by
  obtain ⟨a, b, c, d, e, f, rfl⟩ := length_six_destruct next hlen
  simp only [List.getD_cons_succ, List.getD_cons_zero] at h4 h5 ⊢
  unfold onHRDDStrategyChange
  simp only [ENABLE_PANEL_6, hsaq, Bool.and_self, if_true,
    List.getD_cons_succ, List.getD_cons_zero]
  by_cases h1 : 1/10 < |e + f - 100|
  · rw [if_pos h1]
    by_cases h2 : 0 < e + f
    · rw [if_pos h2]
      have hne : e + f ≠ 0 := ne_of_gt h2
      simp only [List.set, List.getD_cons_succ, List.getD_cons_zero]
      have hsum : e * (100 / (e + f)) + f * (100 / (e + f)) = 100 := by
        field_simp
        ring
      refine ⟨?_, fun _ => ⟨fun _ => ⟨by trivial, by trivial, hsum⟩, fun h0 => absurd h0 hne⟩⟩
      rw [hsum]
      norm_num
    · rw [if_neg h2]
      have h0 : e + f = 0 := le_antisymm (not_lt.mp h2) (add_nonneg h4 h5)
      simp only [List.set, List.getD_cons_succ, List.getD_cons_zero]
      refine ⟨by norm_num, fun _ => ⟨fun hpos => absurd hpos h2, fun _ => ⟨by trivial, by trivial⟩⟩⟩
  · rw [if_neg h1]
    simp only [List.getD_cons_succ, List.getD_cons_zero]
    exact ⟨not_lt.mp h1, fun habs => absurd habs h1⟩

/-- Witness for C1 at a concrete input: strategy `[0,10,5,65,30,30]` with the
SAQ sum 60 is rescaled to a 50/50 split summing to exactly 100. -/
theorem saq_sum_invariant_witness :
    ([0, 10, 5, 65, 30, 30] : List ℚ).length = 6 ∧
    exBaseState.saqConstraintEnabled = true ∧
    (0:ℚ) ≤ ([0, 10, 5, 65, 30, 30] : List ℚ).getD 4 0 ∧
    (0:ℚ) ≤ ([0, 10, 5, 65, 30, 30] : List ℚ).getD 5 0 ∧
    |(onHRDDStrategyChange exBaseState (some [0, 10, 5, 65, 30, 30])).hrddStrategy.getD 4 0 +
      (onHRDDStrategyChange exBaseState (some [0, 10, 5, 65, 30, 30])).hrddStrategy.getD 5 0
        - 100| ≤ 1/10 := by
  refine ⟨rfl, rfl, by norm_num, by norm_num, ?_⟩
  exact (saq_sum_invariant exBaseState [0, 10, 5, 65, 30, 30] rfl rfl
    (by norm_num) (by norm_num)).1

/-! ### Claim C2 -/

theorem applySelection_volumesInvariant (s : AppState) (upd : List String)
    (hinv : volumesInvariant s) : volumesInvariant (applySelection s upd) := by
  intro kv hkv
  simp only [applySelection] at hkv ⊢
  by_cases hde : (s.selectedCountries.filter (fun code => !upd.contains code)).isEmpty
  · rw [if_pos hde] at hkv
    have hmem := hinv kv hkv
    have hdes : s.selectedCountries.filter (fun code => !upd.contains code) = [] :=
      List.isEmpty_iff.mp hde
    have hnot : kv.1 ∉ s.selectedCountries.filter (fun code => !upd.contains code) := by
      rw [hdes]; exact List.not_mem_nil kv.1
    by_contra hcontra
    exact hnot (List.mem_filter.mpr ⟨hmem, by simpa using hcontra⟩)
  · rw [if_neg hde] at hkv
    obtain ⟨hkvmem, hkvp⟩ := List.mem_filter.mp hkv
    have hmem := hinv kv hkvmem
    simp only [Bool.not_eq_true'] at hkvp
    have hnotin : kv.1 ∉ s.selectedCountries.filter (fun code => !upd.contains code) := by
      simpa using hkvp
    by_contra hcontra
    exact hnotin (List.mem_filter.mpr ⟨hmem, by simpa using hcontra⟩)

theorem onCountrySelect_volumesInvariant (s : AppState) (inp : SelectInput)
    (hinv : volumesInvariant s) : volumesInvariant (onCountrySelect s inp) := by
  unfold onCountrySelect
  rcases inp with codes | code | _
  · exact applySelection_volumesInvariant s _ hinv
  · simp only
    split
    · exact hinv
    · exact applySelection_volumesInvariant s _ hinv
  · exact applySelection_volumesInvariant s _ hinv

theorem onVolumeChange_volumesInvariant (s : AppState) (iso : String) (vol : ℚ)
    (hinv : volumesInvariant s) : volumesInvariant (onVolumeChange s iso vol) := by
  unfold onVolumeChange
  simp only
  split
  · rename_i hc
    intro kv hkv
    simp only at hkv ⊢
    rcases objSet_key_mem kv hkv with h | h
    · rw [h]
      simpa using hc
    · exact hinv kv h
  · exact hinv

/-- C2 (amended).  The two country handlers preserve the invariant that every
key of `countryVolumes` is a selected country: `onCountrySelect` purges the
volume entries of every deselected country and `onVolumeChange` refuses to
store a volume for an unselected country.  (The original claim extends this to
`setState` and `restoreState`; that part is refuted by
`setState_orphan_volume`, since both store an arbitrary re-keyed volume map
without filtering it against the selection.) -/
theorem volume_keys_subset_selection (s : AppState) (inp : SelectInput)
    (iso : String) (vol : ℚ) (hinv : volumesInvariant s) :
    volumesInvariant (onCountrySelect s inp) ∧ volumesInvariant (onVolumeChange s iso vol) :=
  ⟨onCountrySelect_volumesInvariant s inp hinv, onVolumeChange_volumesInvariant s iso vol hinv⟩

/-- Witness for C2 (amended): starting from a state satisfying the invariant,
selecting `["usa", "FRA "]` and then setting a volume keeps the invariant. -/
theorem volume_keys_subset_selection_witness :
    volumesInvariant exBaseState ∧
    volumesInvariant (onCountrySelect exBaseState (.arr ["usa", "FRA "])) ∧
    volumesInvariant (onVolumeChange exBaseState "usa" 10) := by
  have h0 : volumesInvariant exBaseState := by decide
  have h := volume_keys_subset_selection exBaseState (.arr ["usa", "FRA "]) "usa" 10 h0
  exact ⟨h0, h.1, h.2⟩

/-- A `setState` payload supplying only a volume map. -/
def exC2Update : StateUpdate := { countryVolumes := some [("FRA", 5)] }

/-- Counterexample to C2 as stated: `setState` with a volume map for a country
that is not selected (the base state has an empty selection) stores the orphan
entry, so the invariant does not survive `setState`. -/
theorem setState_orphan_volume :
    volumesInvariant exBaseState ∧
    ¬ volumesInvariant (setState [70, 85, 35, 25, 15, 5] 6 exBaseState exC2Update) := by
  decide

/-! ### Claim C3 -/

/-- C3.  Every per-tool row of `buildBreakdown` satisfies the spec's budget
formulas with the coverage fraction clamped to [0,1], where the effective cost
assumptions carry the audit cost-reduction factor (which is 1 on the default
path, `applyRed = false`, so the formulas then hold for the raw cost arrays),
and an all-zero coverage vector yields a total cost of exactly 0. -/
theorem budget_rows_match_formulas (strategyCount : ℕ) (count : ℤ) (rate : ℚ)
    (annualCosts perCosts detHoursArr remHoursArr : List ℚ) (rfac : ℚ)
    (isAudit : ℕ → Bool) (applyRed : Bool) (alloc : List (Option ℚ)) (idx : ℕ) :
    (buildBreakdownRow count rate annualCosts perCosts detHoursArr remHoursArr rfac isAudit
        applyRed alloc idx).suppliersUsingTool =
      specSuppliersUsingTool count ((alloc.getD idx none).getD 0) ∧
    (buildBreakdownRow count rate annualCosts perCosts detHoursArr remHoursArr rfac isAudit
        applyRed alloc idx).totalExternalCost =
      specExternalCost count
        (annualCosts.getD idx 0 * (if applyRed && isAudit idx then rfac else 1))
        (perCosts.getD idx 0 * (if applyRed && isAudit idx then rfac else 1))
        ((alloc.getD idx none).getD 0) ∧
    (buildBreakdownRow count rate annualCosts perCosts detHoursArr remHoursArr rfac isAudit
        applyRed alloc idx).detectionInternalCost =
      specDetectionInternalCost count
        (detHoursArr.getD idx 0 * (if applyRed && isAudit idx then rfac else 1)) rate
        ((alloc.getD idx none).getD 0) ∧
    (buildBreakdownRow count rate annualCosts perCosts detHoursArr remHoursArr rfac isAudit
        applyRed alloc idx).remedyInternalCost =
      specRemedyInternalCost count
        (remHoursArr.getD idx 0 * (if applyRed && isAudit idx then rfac else 1)) rate
        ((alloc.getD idx none).getD 0) ∧
    ((∀ i, (alloc.getD i none).getD 0 = 0) →
      ((buildBreakdown strategyCount count rate annualCosts perCosts detHoursArr remHoursArr
          rfac isAudit applyRed alloc).map ToolRow.totalCost).sum = 0) := by
  refine ⟨?_, ?_, ?_, ?_, ?_⟩
  · simp [buildBreakdownRow, specSuppliersUsingTool]
  · simp only [buildBreakdownRow, specExternalCost, specSuppliersUsingTool]
    ring
  · simp only [buildBreakdownRow, specDetectionInternalCost, specSuppliersUsingTool]
  · simp only [buildBreakdownRow, specRemedyInternalCost, specSuppliersUsingTool]
  · intro hz
    apply List.sum_eq_zero
    intro x hx
    simp only [List.mem_map] at hx
    obtain ⟨row, hrow, rfl⟩ := hx
    simp only [buildBreakdown, List.mem_map, List.mem_range] at hrow
    obtain ⟨i, _, rfl⟩ := hrow
    have hzi := hz i
    simp only [List.getD_eq_getElem?_getD] at hzi
    simp [buildBreakdownRow, hzi]

/-- Witness for C3: the reset cost assumptions with an all-zero allocation give
a zero total cost, and the tool-0 row matches the spec's supplier formula. -/
theorem budget_rows_match_formulas_witness :
    ((buildBreakdown 6 500 40 [12000, 0, 0, 40000, 0, 0] [120, 0, 1000, 0, 0, 0]
        [6, 20, 20, 6, 2, 1] [0, 10, 10, 6, 2, 2] (1/2) (fun i => decide (i = 2 ∨ i = 3))
        false [some 0, some 0, some 0, some 0, some 0, some 0]).map ToolRow.totalCost).sum
      = 0 ∧
    (buildBreakdownRow 500 40 [12000, 0, 0, 40000, 0, 0] [120, 0, 1000, 0, 0, 0]
        [6, 20, 20, 6, 2, 1] [0, 10, 10, 6, 2, 2] (1/2) (fun i => decide (i = 2 ∨ i = 3))
        false [some 0, some 0, some 0, some 0, some 0, some 0] 0).suppliersUsingTool =
      specSuppliersUsingTool 500 0 := by
  have hz : ∀ i, (([some 0, some 0, some 0, some 0, some 0, some 0] :
      List (Option ℚ)).getD i none).getD 0 = 0 := by
    intro i
    rcases i with _ | _ | _ | _ | _ | _ | i <;> rfl
  have h := budget_rows_match_formulas 6 500 40 [12000, 0, 0, 40000, 0, 0]
    [120, 0, 1000, 0, 0, 0] [6, 20, 20, 6, 2, 1] [0, 10, 10, 6, 2, 2] (1/2)
    (fun i => decide (i = 2 ∨ i = 3)) false
    [some 0, some 0, some 0, some 0, some 0, some 0] 0
  exact ⟨h.2.2.2.2 hz, h.1⟩

/-! ### Claim C4 -/

theorem scaleEff_of_one_lt {x : ℚ} (h : 1 < x) : scaleEff x = x := by
  unfold scaleEff
  rw [if_neg (not_le.mpr (lt_of_lt_of_le h (le_abs_self x)))]

theorem clampScale_fixed (x : ℚ) (h : x = 0 ∨ (1 < x ∧ x ≤ 100)) :
    clamp100 (scaleEff x) = x := by
  rcases h with rfl | ⟨h1, h2⟩
  · simp [scaleEff, clamp100]
  · rw [scaleEff_of_one_lt h1]
    exact clamp100_eq_self (by linarith) h2

theorem normTrans_fixed (l : List ℚ) (h : ∀ e ∈ l, e = 0 ∨ (1 < e ∧ e ≤ 100)) :
    normalizeTransparencyEffectiveness (l.map some) = l := by
  induction l with
  | nil => rfl
  | cons x xs ih =>
    simp only [normalizeTransparencyEffectiveness, List.map_cons, List.cons.injEq] at ih ⊢
    refine ⟨clampScale_fixed x (h x (List.mem_cons_self x xs)), ?_⟩
    exact ih fun e he => h e (List.mem_cons_of_mem x he)

theorem normResp_fixed (defaults : List ℚ) (l : List ℚ)
    (h : ∀ e ∈ l, e = 0 ∨ (1 < e ∧ e ≤ 100)) :
    normalizeResponsivenessEffectiveness defaults l.length (some (l.map some)) = l := by
  apply List.ext_getElem
  · simp [normalizeResponsivenessEffectiveness]
  · intro i h1 h2
    simp only [normalizeResponsivenessEffectiveness, List.getElem_map, List.getElem_range]
    have hsome : (l.map some).getD i none = some l[i] := by
      rw [List.getD_eq_getElem?_getD, List.getElem?_map, List.getElem?_eq_getElem h2]
      rfl
    rw [hsome]
    exact clampScale_fixed _ (h _ (List.getElem_mem h2))

theorem normSelected_fixed (l : List String) (h : ∀ c ∈ l, normCode c = c ∧ c ≠ "") :
    (l.map normCode).filter (fun c => c != "") = l := by
  induction l with
  | nil => rfl
  | cons x xs ih =>
    obtain ⟨hx, hxne⟩ := h x (List.mem_cons_self x xs)
    simp only [List.map_cons, List.filter_cons, hx]
    rw [if_pos (by simpa using hxne)]
    rw [ih fun c hc => h c (List.mem_cons_of_mem x hc)]

theorem rekeyVolumes_fold_aux (vs : List (String × ℚ)) :
    ∀ acc : List (String × ℚ),
      (∀ kv ∈ vs, normCode kv.1 = kv.1) →
      (∀ kv ∈ vs, ∀ kv' ∈ acc, kv.1 ≠ kv'.1) →
      (vs.map Prod.fst).Nodup →
      vs.foldl (fun acc kv => objSet acc (normCode kv.1) kv.2) acc = acc ++ vs := by
  induction vs with
  | nil => intro acc _ _ _; simp
  | cons kv rest ih =>
    intro acc hnorm hdisj hnodup
    simp only [List.foldl_cons]
    rw [hnorm kv (List.mem_cons_self kv rest)]
    have hfresh : ¬ (acc.any fun kv' => kv'.1 = kv.1) = true := by
      simp only [List.any_eq_true, decide_eq_true_eq, not_exists, not_and]
      intro kv' hkv'
      exact fun heq => hdisj kv (List.mem_cons_self kv rest) kv' hkv' heq.symm
    rw [objSet, if_neg hfresh]
    have hstep : acc ++ [(kv.1, kv.2)] = acc ++ [kv] := by simp
    rw [hstep]
    have hkey : kv.1 ∉ rest.map Prod.fst := by
      have := hnodup
      simp only [List.map_cons, List.nodup_cons] at this
      exact this.1
    rw [ih (acc ++ [kv])
      (fun kv'' h'' => hnorm kv'' (List.mem_cons_of_mem kv h''))
      ?disj
      (by simpa using hnodup.of_cons)]
    · simp
    case disj =>
      intro kv'' h'' kv' h'
      rcases List.mem_append.mp h' with h' | h'
      · exact hdisj kv'' (List.mem_cons_of_mem kv h'') kv' h'
      · simp only [List.mem_singleton] at h'
        subst h'
        intro heq
        exact hkey (heq ▸ List.mem_map_of_mem Prod.fst h'')

theorem rekeyVolumes_fixed (vs : List (String × ℚ))
    (hnorm : ∀ kv ∈ vs, normCode kv.1 = kv.1)
    (hnodup : (vs.map Prod.fst).Nodup) : rekeyVolumes vs = vs := by
  unfold rekeyVolumes
  rw [rekeyVolumes_fold_aux vs [] hnorm (by intro kv _ kv' h'; cases h') hnodup]
  simp

theorem clamp01_eq_self {x : ℚ} (h0 : 0 ≤ x) (h1 : x ≤ 1) : clamp01 x = x := by
  unfold clamp01
  rw [min_eq_right h1, max_eq_right h0]

/-- C4 (amended).  `saveState` followed by `restoreState` is the identity on
the session as long as the stored values are fixed points of the restore
normalizations: normalized, non-empty country codes; volume keys normalized
and duplicate-free; focus already in [0,1]; and every effectiveness entry
either 0 or in (1,100].  (The unamended claim — the round trip is the identity
on *every* value the normalizers can produce, including effectiveness entries
in (0,1] — is refuted by `save_restore_changes_effectiveness`: entries in
(0,1] are re-scaled by 100 on restore.) -/
theorem save_restore_roundtrip (respDefaults : List ℚ) (s : AppState)
    (hsel : ∀ c ∈ s.selectedCountries, normCode c = c ∧ c ≠ "")
    (htr : ∀ e ∈ s.transparencyEffectiveness, e = 0 ∨ (1 < e ∧ e ≤ 100))
    (hre : ∀ e ∈ s.responsivenessEffectiveness, e = 0 ∨ (1 < e ∧ e ≤ 100))
    (hfoc : 0 ≤ s.focus ∧ s.focus ≤ 1)
    (hkeys : ∀ kv ∈ s.countryVolumes, normCode kv.1 = kv.1)
    (hnodup : (s.countryVolumes.map Prod.fst).Nodup) :
    restoreState respDefaults s.responsivenessEffectiveness.length s (saveState s) = s := by
  obtain ⟨w, sel, vols, mr, hs, te, rs, re, fo, rc, cp, sc, hr, tac, tpc, tih, trh, saq,
    soc, socr, lor, sar⟩ := s
  simp only [restoreState, saveState, AppState.mk.injEq, true_and, and_true] at *
  exact ⟨normSelected_fixed sel hsel, rekeyVolumes_fixed vols hkeys hnodup,
    normTrans_fixed te htr, normResp_fixed respDefaults re hre,
    clamp01_eq_self hfoc.1 hfoc.2⟩

/-- Witness for C4 (amended): the round trip is the identity on the reset
state. -/
theorem save_restore_roundtrip_witness :
    restoreState [70, 85, 35, 25, 15, 5] exBaseState.responsivenessEffectiveness.length
      exBaseState (saveState exBaseState) = exBaseState := by
  apply save_restore_roundtrip
  · intro c hc
    simp [exBaseState] at hc
  · intro e he
    simp only [exBaseState, List.mem_cons, List.not_mem_nil, or_false] at he
    rcases he with rfl | rfl | rfl | rfl | rfl | rfl <;> norm_num
  · intro e he
    simp only [exBaseState, List.mem_cons, List.not_mem_nil, or_false] at he
    rcases he with rfl | rfl | rfl | rfl | rfl | rfl <;> norm_num
  · constructor <;> norm_num [exBaseState]
  · intro kv hkv
    simp [exBaseState] at hkv
  · simp [exBaseState]

/-- A state whose transparency effectiveness contains the entry 1, which the
normalizer itself produces from the input 0.01. -/
def exC4State : AppState := { exBaseState with transparencyEffectiveness := [1, 45, 25, 15, 12, 5] }

/-- Counterexample to C4 as stated: an effectiveness entry of 1 — producible by
the normalizer, hence reachable — is restored as 100, so the save/restore round
trip is not the identity on the saved session data. -/
theorem save_restore_changes_effectiveness :
    normalizeTransparencyEffectiveness [some (1/100)] = [1] ∧
    (restoreState [70, 85, 35, 25, 15, 5] 6 exC4State
        (saveState exC4State)).transparencyEffectiveness ≠
      exC4State.transparencyEffectiveness := by
  constructor
  · have habs : |(1:ℚ)/100| ≤ 1 := by rw [abs_of_nonneg] <;> norm_num
    simp only [normalizeTransparencyEffectiveness, List.map_cons, List.map_nil, scaleEff,
      if_pos habs]
    norm_num [clamp100]
  · have h1 : scaleEff 1 = 100 := by
      unfold scaleEff
      rw [if_pos (by norm_num)]
      norm_num
    simp only [restoreState, saveState, exC4State, exBaseState, List.map_cons, List.map_nil,
      normalizeTransparencyEffectiveness, h1,
      scaleEff_of_one_lt (by norm_num : (1:ℚ) < 45),
      scaleEff_of_one_lt (by norm_num : (1:ℚ) < 25),
      scaleEff_of_one_lt (by norm_num : (1:ℚ) < 15),
      scaleEff_of_one_lt (by norm_num : (1:ℚ) < 12),
      scaleEff_of_one_lt (by norm_num : (1:ℚ) < 5)]
    norm_num [clamp100]

/-! ### Claim C5 -/

/-- C5.  With the social-audit constraint disabled the audit coverage target is
`null`; with it enabled the target is the current strategy's tool-2 + tool-3
coverage sum (each entry clamped to [0,100], so the raw sum is at most 200),
replaced by the fallback allocation's audit sum when the current sum is at most
0.1, capped at 100, and always lies in [0,100]. -/
theorem audit_coverage_target_bounds (hrddStrategy currentAllocation :
    Option (List (Option ℚ))) :
    auditCoverageTarget false hrddStrategy currentAllocation = none ∧
    (∃ target, auditCoverageTarget true hrddStrategy currentAllocation = some target ∧
      0 ≤ target ∧ target ≤ 100 ∧
      target = min 100 (if 1/10 < computeAuditCoverageFromAllocation hrddStrategy
        then computeAuditCoverageFromAllocation hrddStrategy
        else computeAuditCoverageFromAllocation currentAllocation)) ∧
    computeAuditCoverageFromAllocation hrddStrategy ≤ 200 := by
  refine ⟨rfl, ?_, computeAuditCoverage_le_two_hundred hrddStrategy⟩
  unfold auditCoverageTarget
  simp only [if_true]
  have hbase : 0 ≤ (if computeAuditCoverageFromAllocation hrddStrategy > 1/10
      then computeAuditCoverageFromAllocation hrddStrategy
      else computeAuditCoverageFromAllocation currentAllocation) := by
    split
    · exact computeAuditCoverage_nonneg hrddStrategy
    · exact computeAuditCoverage_nonneg currentAllocation
  refine ⟨_, rfl, le_max_left _ _, ?_, ?_⟩
  · exact max_le (by norm_num) (min_le_left _ _)
  · rw [max_eq_right (le_min (by norm_num) hbase)]

/-! ### Claim C6 -/

/-- C6.  In the fallback stage attribution of `createFinalResultsPanel`, the
three base-stage reductions sum exactly to the base reduction; when the total
reduction is non-zero every stage share equals that stage's reduction divided
by the total (times 100) and the four shares sum to 100; when the total
reduction is zero all shares and step percentages are 0; and when the baseline
is 0 all step percentages are 0 — never NaN, since every division is
guarded. -/
theorem fallback_attribution_shares (b m fm t r c : ℚ) :
    (fallbackStageAttribution b m fm t r c).detectionStageReduction +
      (fallbackStageAttribution b m fm t r c).remedyStageReduction +
      (fallbackStageAttribution b m fm t r c).conductStageReduction =
      (fallbackStageAttribution b m fm t r c).baseReduction ∧
    ((fallbackStageAttribution b m fm t r c).totalReduction ≠ 0 →
      (fallbackStageAttribution b m fm t r c).detectionShareOfTotal =
        (fallbackStageAttribution b m fm t r c).detectionStageReduction /
          (fallbackStageAttribution b m fm t r c).totalReduction * 100 ∧
      (fallbackStageAttribution b m fm t r c).remedyShareOfTotal =
        (fallbackStageAttribution b m fm t r c).remedyStageReduction /
          (fallbackStageAttribution b m fm t r c).totalReduction * 100 ∧
      (fallbackStageAttribution b m fm t r c).conductShareOfTotal =
        (fallbackStageAttribution b m fm t r c).conductStageReduction /
          (fallbackStageAttribution b m fm t r c).totalReduction * 100 ∧
      (fallbackStageAttribution b m fm t r c).focusShareOfTotal =
        (fallbackStageAttribution b m fm t r c).focusStageReduction /
          (fallbackStageAttribution b m fm t r c).totalReduction * 100 ∧
      (fallbackStageAttribution b m fm t r c).detectionShareOfTotal +
        (fallbackStageAttribution b m fm t r c).remedyShareOfTotal +
        (fallbackStageAttribution b m fm t r c).conductShareOfTotal +
        (fallbackStageAttribution b m fm t r c).focusShareOfTotal = 100) ∧
    ((fallbackStageAttribution b m fm t r c).totalReduction = 0 →
      (fallbackStageAttribution b m fm t r c).detectionShareOfTotal = 0 ∧
      (fallbackStageAttribution b m fm t r c).remedyShareOfTotal = 0 ∧
      (fallbackStageAttribution b m fm t r c).conductShareOfTotal = 0 ∧
      (fallbackStageAttribution b m fm t r c).focusShareOfTotal = 0 ∧
      (fallbackStageAttribution b m fm t r c).detectionStepPercent = 0 ∧
      (fallbackStageAttribution b m fm t r c).remedyStepPercent = 0 ∧
      (fallbackStageAttribution b m fm t r c).conductStepPercent = 0 ∧
      (fallbackStageAttribution b m fm t r c).focusStepPercent = 0) ∧
    (b = 0 →
      (fallbackStageAttribution b m fm t r c).detectionStepPercent = 0 ∧
      (fallbackStageAttribution b m fm t r c).remedyStepPercent = 0 ∧
      (fallbackStageAttribution b m fm t r c).conductStepPercent = 0 ∧
      (fallbackStageAttribution b m fm t r c).focusStepPercent = 0) := by
  set A := fallbackStageAttribution b m fm t r c with hA
  have hT : A.totalReduction = b - m := rfl
  have hbase : A.baseReduction = if fm > 0 then A.totalReduction / fm else 0 := rfl
  have hfs : A.focusStageReduction = A.totalReduction - A.baseReduction := rfl
  have hdet : A.detectionStageReduction = A.baseReduction *
      (if max 0 (min 1 t) + max 0 (min 1 r) + max 0 (min 1 c) > 0
        then max 0 (min 1 t) / (max 0 (min 1 t) + max 0 (min 1 r) + max 0 (min 1 c))
        else 1/3) := rfl
  have hrem : A.remedyStageReduction = A.baseReduction *
      (if max 0 (min 1 t) + max 0 (min 1 r) + max 0 (min 1 c) > 0
        then max 0 (min 1 r) / (max 0 (min 1 t) + max 0 (min 1 r) + max 0 (min 1 c))
        else 1/3) := rfl
  have hcon : A.conductStageReduction =
      A.baseReduction - A.detectionStageReduction - A.remedyStageReduction := rfl
  have hds : A.detectionShareOfTotal = if A.totalReduction ≠ 0
      then A.detectionStageReduction / A.totalReduction * 100 else 0 := rfl
  have hrs : A.remedyShareOfTotal = if A.totalReduction ≠ 0
      then A.remedyStageReduction / A.totalReduction * 100 else 0 := rfl
  have hcs : A.conductShareOfTotal = if A.totalReduction ≠ 0
      then A.conductStageReduction / A.totalReduction * 100 else 0 := rfl
  have hfshare : A.focusShareOfTotal = if A.totalReduction ≠ 0
      then A.focusStageReduction / A.totalReduction * 100 else 0 := rfl
  have hdp : A.detectionStepPercent = if b > 0
      then A.detectionStageReduction / b * 100 else 0 := rfl
  have hrp : A.remedyStepPercent = if b > 0
      then A.remedyStageReduction / b * 100 else 0 := rfl
  have hcp : A.conductStepPercent = if b > 0
      then A.conductStageReduction / b * 100 else 0 := rfl
  have hfp : A.focusStepPercent = if b > 0
      then A.focusStageReduction / b * 100 else 0 := rfl
  refine ⟨by rw [hcon]; ring, ?_, ?_, ?_⟩
  · intro hTne
    rw [hds, hrs, hcs, hfshare, if_pos hTne, if_pos hTne, if_pos hTne, if_pos hTne]
    refine ⟨rfl, rfl, rfl, rfl, ?_⟩
    rw [hcon, hfs]
    field_simp
    ring
  · intro hT0
    have hbase0 : A.baseReduction = 0 := by
      rw [hbase, hT0]
      split_ifs <;> simp
    have hdet0 : A.detectionStageReduction = 0 := by rw [hdet, hbase0, zero_mul]
    have hrem0 : A.remedyStageReduction = 0 := by rw [hrem, hbase0, zero_mul]
    have hcon0 : A.conductStageReduction = 0 := by rw [hcon, hbase0, hdet0, hrem0]; ring
    have hfs0 : A.focusStageReduction = 0 := by rw [hfs, hT0, hbase0]; ring
    rw [hds, hrs, hcs, hfshare, hdp, hrp, hcp, hfp, hT0, hdet0, hrem0, hcon0, hfs0]
    norm_num
  · intro hb
    subst hb
    rw [hdp, hrp, hcp, hfp]
    norm_num

/-- Witness for C6: with baseline 100, managed 40 and focus multiplier 2 the
four shares sum to 100, and with a zero total reduction or zero baseline the
guarded quantities are 0. -/
theorem fallback_attribution_shares_witness :
    (fallbackStageAttribution 100 40 2 (1/2) (1/4) (1/4)).detectionShareOfTotal +
      (fallbackStageAttribution 100 40 2 (1/2) (1/4) (1/4)).remedyShareOfTotal +
      (fallbackStageAttribution 100 40 2 (1/2) (1/4) (1/4)).conductShareOfTotal +
      (fallbackStageAttribution 100 40 2 (1/2) (1/4) (1/4)).focusShareOfTotal = 100 ∧
    (fallbackStageAttribution 50 50 2 1 1 1).detectionShareOfTotal = 0 ∧
    (fallbackStageAttribution 0 0 1 1 1 1).detectionStepPercent = 0 := by
  have h := fallback_attribution_shares 100 40 2 (1/2) (1/4) (1/4)
  have hz := fallback_attribution_shares 50 50 2 1 1 1
  have hb := fallback_attribution_shares 0 0 1 1 1 1
  have hT1 : (fallbackStageAttribution 100 40 2 (1/2) (1/4) (1/4)).totalReduction =
      100 - 40 := rfl
  have hT2 : (fallbackStageAttribution 50 50 2 1 1 1).totalReduction = 50 - 50 := rfl
  refine ⟨(h.2.1 ?_).2.2.2.2, (hz.2.2.1 ?_).1, (hb.2.2.2 rfl).1⟩
  · rw [hT1]; norm_num
  · rw [hT2]; norm_num

/-! ### Claim C7 -/

/-- C7.  `optimizeBudgetAllocation` (with the engine modelled as a pure
function, i.e. under the claim's hypothesis that the engine does not mutate
its arguments) stores the engine's result (null when falsy) in
`lastOptimizationResult`, clears `shouldAutoRunOptimization`, and leaves every
other state field unchanged. -/
theorem optimize_frame (s : AppState) (engine : AppState → Option OptResult) :
    (optimizeBudgetAllocation s engine).1.lastOptimizationResult = engine s ∧
    (optimizeBudgetAllocation s engine).1.shouldAutoRunOptimization = false ∧
    (engine s = none → (optimizeBudgetAllocation s engine).1.lastOptimizationResult = none) ∧
    (optimizeBudgetAllocation s engine).1.hrddStrategy = s.hrddStrategy ∧
    (optimizeBudgetAllocation s engine).1.weights = s.weights ∧
    (optimizeBudgetAllocation s engine).1.selectedCountries = s.selectedCountries ∧
    (optimizeBudgetAllocation s engine).1.countryVolumes = s.countryVolumes ∧
    (optimizeBudgetAllocation s engine).1.countryManagedRisks = s.countryManagedRisks ∧
    (optimizeBudgetAllocation s engine).1.transparencyEffectiveness =
      s.transparencyEffectiveness ∧
    (optimizeBudgetAllocation s engine).1.responsivenessStrategy = s.responsivenessStrategy ∧
    (optimizeBudgetAllocation s engine).1.responsivenessEffectiveness =
      s.responsivenessEffectiveness ∧
    (optimizeBudgetAllocation s engine).1.focus = s.focus ∧
    (optimizeBudgetAllocation s engine).1.riskConcentration = s.riskConcentration ∧
    (optimizeBudgetAllocation s engine).1.currentPanel = s.currentPanel ∧
    (optimizeBudgetAllocation s engine).1.supplierCount = s.supplierCount ∧
    (optimizeBudgetAllocation s engine).1.hourlyRate = s.hourlyRate ∧
    (optimizeBudgetAllocation s engine).1.toolAnnualProgrammeCosts =
      s.toolAnnualProgrammeCosts ∧
    (optimizeBudgetAllocation s engine).1.toolPerSupplierCosts = s.toolPerSupplierCosts ∧
    (optimizeBudgetAllocation s engine).1.toolInternalHours = s.toolInternalHours ∧
    (optimizeBudgetAllocation s engine).1.toolRemedyInternalHours =
      s.toolRemedyInternalHours ∧
    (optimizeBudgetAllocation s engine).1.saqConstraintEnabled = s.saqConstraintEnabled ∧
    (optimizeBudgetAllocation s engine).1.socialAuditConstraintEnabled =
      s.socialAuditConstraintEnabled ∧
    (optimizeBudgetAllocation s engine).1.socialAuditCostReduction =
      s.socialAuditCostReduction := by
  simp [optimizeBudgetAllocation, ENABLE_PANEL_6]

/-- Witness for C7: with an engine returning a falsy result, the stored result
is null and the strategy is untouched. -/
theorem optimize_frame_witness :
    (optimizeBudgetAllocation exBaseState (fun _ => none)).1.lastOptimizationResult = none ∧
    (optimizeBudgetAllocation exBaseState (fun _ => none)).1.hrddStrategy =
      exBaseState.hrddStrategy := by
  obtain ⟨-, -, h3, h4, -⟩ := optimize_frame exBaseState (fun _ => none)
  exact ⟨h3 rfl, h4⟩

/-! ### Claim C8 -/

/-- C8 (amended).  Both effectiveness normalizers return entries in [0,100],
map a non-finite entry to 0 (transparency) or the clamped default
(responsiveness), and treat an entry of absolute value at most 1 as a 0–1
fraction, multiplying it by 100 before clamping — an input of 0.5 is stored as
50.  (The unamended claim — a caller can *never* store an effectiveness value
strictly between 0 and 1 — is refuted by
`effectiveness_small_fraction_stored`: a stored entry lies strictly between 0
and 1 exactly when the raw entry lies strictly between 0 and 0.01.) -/
theorem effectiveness_normalizer_behavior (arr : List (Option ℚ)) (defaults : List ℚ)
    (expectedLength : ℕ) (x : ℚ) :
    (∀ e ∈ normalizeTransparencyEffectiveness arr, 0 ≤ e ∧ e ≤ 100) ∧
    (∀ e ∈ normalizeResponsivenessEffectiveness defaults expectedLength (some arr),
      0 ≤ e ∧ e ≤ 100) ∧
    normalizeTransparencyEffectiveness [none] = [0] ∧
    normalizeResponsivenessEffectiveness defaults 1 (some [none]) =
      [clamp100 (defaults.getD 0 0)] ∧
    (|x| ≤ 1 → normalizeTransparencyEffectiveness [some x] = [clamp100 (x * 100)]) ∧
    normalizeTransparencyEffectiveness [some (1/2)] = [50] ∧
    ((0 < clamp100 (scaleEff x) ∧ clamp100 (scaleEff x) < 1) ↔ (0 < x ∧ x < 1/100)) := by
  refine ⟨?_, ?_, rfl, rfl, ?_, ?_, clamp_scale_mem_unit_iff x⟩
  · intro e he
    simp only [normalizeTransparencyEffectiveness, List.mem_map] at he
    obtain ⟨v, _, hev⟩ := he
    rcases v with _ | y
    · simp only at hev
      rw [← hev]
      norm_num
    · simp only at hev
      rw [← hev]
      exact ⟨clamp100_nonneg _, clamp100_le _⟩
  · intro e he
    simp only [normalizeResponsivenessEffectiveness, List.mem_map, List.mem_range] at he
    obtain ⟨i, _, hei⟩ := he
    rcases harr : arr.getD i none with _ | y <;> rw [harr] at hei <;> simp only at hei <;>
      rw [← hei] <;> exact ⟨clamp100_nonneg _, clamp100_le _⟩
  · intro habs
    simp only [normalizeTransparencyEffectiveness, List.map_cons, List.map_nil, scaleEff,
      if_pos habs]
  · have habs : |(1:ℚ)/2| ≤ 1 := by rw [abs_of_nonneg] <;> norm_num
    simp only [normalizeTransparencyEffectiveness, List.map_cons, List.map_nil, scaleEff,
      if_pos habs]
    norm_num [clamp100]

/-- Witness for C8 (amended): 0.5 is scaled to 50 and a non-finite entry is
stored as 0. -/
theorem effectiveness_normalizer_behavior_witness :
    normalizeTransparencyEffectiveness [some (1/2)] = [clamp100 ((1/2) * 100)] ∧
    normalizeTransparencyEffectiveness [none] = [0] := by
  have h := effectiveness_normalizer_behavior [none] [70] 1 (1/2)
  exact ⟨h.2.2.2.2.1 (by rw [abs_of_nonneg] <;> norm_num), h.2.2.1⟩

/-- Counterexample to C8 as stated: the input 0.005 is stored as 0.5 — a value
strictly between 0 and 1 can be stored. -/
theorem effectiveness_small_fraction_stored :
    normalizeTransparencyEffectiveness [some (5/1000)] = [1/2] ∧
    (0:ℚ) < 1/2 ∧ (1/2:ℚ) < 1 := by
  refine ⟨?_, by norm_num, by norm_num⟩
  have habs : |(5:ℚ)/1000| ≤ 1 := by rw [abs_of_nonneg] <;> norm_num
  simp only [normalizeTransparencyEffectiveness, List.map_cons, List.map_nil, scaleEff,
    if_pos habs]
  norm_num [clamp100]

/-! ### Claim C9 -/

/-- C9 (amended).  `setState` rounds a numeric `currentPanel` and clamps it to
[1,5], so a `setState` call can never *set* panel 6 — even though
`setCurrentPanel` accepts panel 6 while Panel 6 is enabled.  (The unamended
conclusion — no `setState` call can ever leave the application on panel 6 — is
refuted by `setState_keeps_panel6`: a payload without a numeric `currentPanel`
leaves a pre-existing panel 6 in place.) -/
theorem setState_panel_clamped (respDefaults : List ℚ) (respLength : ℕ) (s : AppState)
    (update : StateUpdate) (p : ℚ) (hp : update.currentPanel = some p) :
    (setState respDefaults respLength s update).currentPanel =
      ((max 1 (min 5 (jsRound p)) : ℤ) : ℚ) ∧
    (setState respDefaults respLength s update).currentPanel ≠ 6 ∧
    (setCurrentPanel s 6).currentPanel = 6 := by
  have h1 : (setState respDefaults respLength s update).currentPanel =
      ((max 1 (min 5 (jsRound p)) : ℤ) : ℚ) := by
    simp only [setState, hp]
  refine ⟨h1, ?_, ?_⟩
  · rw [h1]
    intro heq
    have hle : (max 1 (min 5 (jsRound p)) : ℤ) ≤ 5 := max_le (by norm_num) (min_le_left _ _)
    have hcast : ((max 1 (min 5 (jsRound p)) : ℤ) : ℚ) ≤ 5 := by exact_mod_cast hle
    rw [heq] at hcast
    norm_num at hcast
  · norm_num [setCurrentPanel, ENABLE_PANEL_6]

/-- A `setState` payload carrying only a (non-integral) panel number. -/
def exC9PanelUpdate : StateUpdate := { currentPanel := some (13/2) }

/-- Witness for C9 (amended): a requested panel of 6.5 is rounded to 7 and
clamped to 5, in particular it is not 6. -/
theorem setState_panel_clamped_witness :
    (setState [70, 85, 35, 25, 15, 5] 6 exBaseState exC9PanelUpdate).currentPanel =
      ((max 1 (min 5 (jsRound (13/2))) : ℤ) : ℚ) ∧
    (setState [70, 85, 35, 25, 15, 5] 6 exBaseState exC9PanelUpdate).currentPanel ≠ 6 := by
  have h := setState_panel_clamped [70, 85, 35, 25, 15, 5] 6 exBaseState exC9PanelUpdate
    (13/2) rfl
  exact ⟨h.1, h.2.1⟩

/-- An empty `setState` payload. -/
def exC9EmptyUpdate : StateUpdate := {}

/-- Counterexample to C9 as stated: navigate to panel 6 with `setCurrentPanel`
(Panel 6 is enabled), then call `setState` with a payload carrying no numeric
`currentPanel` — the application is still on panel 6 after the `setState`
call. -/
theorem setState_keeps_panel6 :
    (setCurrentPanel exBaseState 6).currentPanel = 6 ∧
    (setState [70, 85, 35, 25, 15, 5] 6 (setCurrentPanel exBaseState 6)
      exC9EmptyUpdate).currentPanel = 6 := by
  have h1 : (setCurrentPanel exBaseState 6).currentPanel = 6 := by
    norm_num [setCurrentPanel, ENABLE_PANEL_6]
  exact ⟨h1, by simpa only [setState, exC9EmptyUpdate] using h1⟩

/-! ### Claim C10 -/

/-- C10.  `createCostAnalysisPanel` clamps every per-tool cost assumption into
a fixed range — annual programme cost to [0, 50 000], per-supplier cost to
[0, 2 000], detection hours to [0, 500], remedy hours to [0, 200] — while
non-numeric entries become 0 and missing entries are filled, so each sanitized
array has exactly one entry per tool. -/
theorem cost_assumptions_sanitized (strategyCount : ℕ)
    (ac pc dh rh : Option (List (Option ℚ))) :
    (sanitizedToolAnnualProgrammeCosts strategyCount ac).length = strategyCount ∧
    (sanitizedToolPerSupplierCosts strategyCount pc).length = strategyCount ∧
    (sanitizedToolInternalHours strategyCount dh).length = strategyCount ∧
    (sanitizedToolRemedyInternalHours strategyCount rh).length = strategyCount ∧
    (∀ e ∈ sanitizedToolAnnualProgrammeCosts strategyCount ac, 0 ≤ e ∧ e ≤ 50000) ∧
    (∀ e ∈ sanitizedToolPerSupplierCosts strategyCount pc, 0 ≤ e ∧ e ≤ 2000) ∧
    (∀ e ∈ sanitizedToolInternalHours strategyCount dh, 0 ≤ e ∧ e ≤ 500) ∧
    (∀ e ∈ sanitizedToolRemedyInternalHours strategyCount rh, 0 ≤ e ∧ e ≤ 200) ∧
    (∀ i < strategyCount, (ac.getD []).getD i none = none →
      (sanitizedToolAnnualProgrammeCosts strategyCount ac).getD i 0 = 0) ∧
    (∀ i < strategyCount, (pc.getD []).getD i none = none →
      (sanitizedToolPerSupplierCosts strategyCount pc).getD i 0 = 0) ∧
    (∀ i < strategyCount, (dh.getD []).getD i none = none →
      (sanitizedToolInternalHours strategyCount dh).getD i 0 = 0) ∧
    (∀ i < strategyCount, (rh.getD []).getD i none = none →
      (sanitizedToolRemedyInternalHours strategyCount rh).getD i 0 = 0) := by
  unfold sanitizedToolAnnualProgrammeCosts sanitizedToolPerSupplierCosts
    sanitizedToolInternalHours sanitizedToolRemedyInternalHours
  refine ⟨sanitizeArray_length .., sanitizeArray_length .., sanitizeArray_length ..,
    sanitizeArray_length .., sanitizeArray_mem_bounds (by norm_num),
    sanitizeArray_mem_bounds (by norm_num), sanitizeArray_mem_bounds (by norm_num),
    sanitizeArray_mem_bounds (by norm_num), ?_, ?_, ?_, ?_⟩ <;>
    exact fun i hi hraw => sanitizeArray_none_eq_zero (by norm_num) hi hraw

/-- Witness for C10: a tool list with an over-cap first entry and a missing
second entry is sanitized to the cap and 0 respectively. -/
theorem cost_assumptions_sanitized_witness :
    (sanitizedToolAnnualProgrammeCosts 6 (some [some 60000, none])).length = 6 ∧
    (sanitizedToolAnnualProgrammeCosts 6 (some [some 60000, none])).getD 1 0 = 0 ∧
    (∀ e ∈ sanitizedToolAnnualProgrammeCosts 6 (some [some 60000, none]),
      0 ≤ e ∧ e ≤ 50000) := by
  have h := cost_assumptions_sanitized 6 (some [some 60000, none]) none none none
  exact ⟨h.1, h.2.2.2.2.2.2.2.2.1 1 (by norm_num) rfl, h.2.2.2.2.1⟩

end RiskMap
